import Mathlib

/-!
Shallow embedding of the sai-web private-messaging client
(`src/components/SecretCodeGate.tsx`, `src/pages/Index.tsx`,
`src/components/ChatRoom.tsx`) and proofs about its specification.

Conventions of the embedding:
* identifiers (profile ids, message ids, auth user ids) are `String`s;
* timestamps are `Nat` milliseconds (the backend's `created_at` / `read_at`
  and JavaScript's `Date.now()` are totally ordered instants; the client
  only compares them);
* a database table is a `List` of rows; a Supabase `update ... eq/is`
  call is a `List.map` that rewrites exactly the rows matching the filter;
* fallible external effects (storage upload) are driven by an explicit
  boolean outcome parameter and return `Option`;
* toasts are modelled as boolean flags in each operation's result.
-/

/-- A row of the `messages` table as the client sees it
(`ChatRoom.tsx` interface `Message`, lines 17-27). -/
structure Message where
  id : String
  content : String
  sender_name : String
  sender_id : String
  recipient_id : String
  created_at : Nat
  image_url : Option String := none
  voice_url : Option String := none
  read_at : Option Nat := none
deriving DecidableEq

/-- The payload the client hands to `supabase.from("messages").insert`:
a message row before the backend assigns `id`, `created_at`, `read_at`. -/
structure InsertRow where
  content : String
  sender_name : String
  sender_id : String
  recipient_id : String
  image_url : Option String := none
  voice_url : Option String := none
deriving DecidableEq

/-- JavaScript `String.prototype.trim` on the character list:
drop whitespace from both ends. -/
def jsTrimList (l : List Char) : List Char :=
  ((l.dropWhile Char.isWhitespace).reverse.dropWhile Char.isWhitespace).reverse

/-- JavaScript `String.prototype.trim`. -/
def jsTrim (s : String) : String := String.mk (jsTrimList s.data)

/-- JavaScript `String.prototype.toUpperCase` (ASCII fragment, which is all
the gate's code alphabet uses). -/
def jsToUpperCase (s : String) : String := String.mk (s.data.map Char.toUpper)

/-- The fixed gate constant (`SecretCodeGate.tsx` line 10). -/
def SECRET_CODE : String := "CIPHER2024"

/-- Outcome of one submission of the secret-code gate: either
`onAccessGranted` is invoked with the trimmed alias, or an error message is
set and access is not granted. -/
inductive GateResult where
  | granted (aliasName : String)
  | denied (errorMsg : String)
deriving DecidableEq

/-- `SecretCodeGate.handleSubmit` (`SecretCodeGate.tsx` lines 18-33):
an empty trimmed alias is rejected first; then the entered code is
upper-cased and compared with `SECRET_CODE`. -/
def handleSubmit (name code : String) : GateResult :=
  if jsTrim name = "" then GateResult.denied "Enter your alias to proceed"
  else if jsToUpperCase code = SECRET_CODE then GateResult.granted (jsTrim name)
  else GateResult.denied "ACCESS DENIED - Invalid code"

/-- `markMessagesAsRead` (`ChatRoom.tsx` lines 168-177): bulk update of the
`messages` table setting `read_at := now` on rows matching
`sender_id = peer`, `recipient_id = me`, `read_at IS NULL`. -/
def markMessagesAsRead (table : List Message) (peer me : String) (now : Nat) :
    List Message :=
  table.map fun m =>
    if m.sender_id = peer ∧ m.recipient_id = me ∧ m.read_at = none then
      { m with read_at := some now }
    else m

/-- `markMessageAsRead` (`ChatRoom.tsx` lines 179-184): update of the
`messages` table setting `read_at := now` on the row with `id = msgId`,
with no guard on the current `read_at`. -/
def markMessageAsRead (table : List Message) (msgId : String) (now : Nat) :
    List Message :=
  table.map fun m =>
    if m.id = msgId then { m with read_at := some now } else m

/-- The conversation filter of `fetchMessages` (`ChatRoom.tsx` lines 244-246):
`or(and(sender_id.eq.me, recipient_id.eq.peer), and(sender_id.eq.peer,
recipient_id.eq.me))`. The same condition filters realtime INSERT events
(lines 120-123). -/
def pairMatch (me peer : String) (m : Message) : Bool :=
  (decide (m.sender_id = me) && decide (m.recipient_id = peer)) ||
  (decide (m.sender_id = peer) && decide (m.recipient_id = me))

/-- The display order of `fetchMessages`:
`order('created_at', { ascending: true })` (`ChatRoom.tsx` line 247). -/
def createdLE (a b : Message) : Prop := a.created_at ≤ b.created_at

instance : DecidableRel createdLE := fun a b => Nat.decLe a.created_at b.created_at

instance : IsTotal Message createdLE := ⟨fun a b => Nat.le_total a.created_at b.created_at⟩

instance : IsTrans Message createdLE := ⟨fun _ _ _ => Nat.le_trans⟩

/-- `fetchMessages` (`ChatRoom.tsx` lines 238-258): the rows of the
`messages` table restricted to the open pair, ordered by `created_at`
ascending, with no limit clause. -/
def fetchMessages (table : List Message) (me peer : String) : List Message :=
  List.insertionSort createdLE (table.filter (pairMatch me peer))

/-- The realtime INSERT handler (`ChatRoom.tsx` lines 118-130): append the
new row to the local list exactly when its sender/recipient pair matches
the open conversation. (The nested `markMessageAsRead` call it makes when
the sender is the selected peer is modelled by `markMessageAsRead`.) -/
def handleInsertEvent (msgs : List Message) (me peer : String) (newMsg : Message) :
    List Message :=
  if pairMatch me peer newMsg then msgs ++ [newMsg] else msgs

/-- The realtime UPDATE handler (`ChatRoom.tsx` lines 139-144): replace the
entries whose `id` equals the updated row's `id`, leaving the rest as is. -/
def handleUpdateEvent (msgs : List Message) (upd : Message) : List Message :=
  msgs.map fun m => if m.id = upd.id then upd else m

/-- The client state behind the typing indicator: the `isRecipientTyping`
boolean and the pending `setTimeout` deadline held in `typingTimeoutRef`
(`ChatRoom.tsx` lines 45-46). `timeoutDeadline = some d` means a timer is
scheduled to clear the indicator at instant `d`. -/
structure TypingState where
  isRecipientTyping : Bool
  timeoutDeadline : Option Nat
deriving DecidableEq

/-- State before any broadcast is received. -/
def initialTypingState : TypingState := ⟨false, none⟩

/-- The `broadcast`/`typing` handler (`ChatRoom.tsx` lines 151-157): if the
payload's `user_id` is the selected recipient, show the indicator, cancel
any pending timer and schedule a clear 2000 ms from `now`; otherwise do
nothing. -/
def onTypingBroadcast (s : TypingState) (selectedRecipient payloadUserId : String)
    (now : Nat) : TypingState :=
  if payloadUserId = selectedRecipient then ⟨true, some (now + 2000)⟩ else s

/-- Whether the indicator is showing at instant `t`: the scheduled clear
(`setTimeout(() => setIsRecipientTyping(false), 2000)`) has fired once `t`
reaches the deadline. -/
def typingVisible (s : TypingState) (t : Nat) : Bool :=
  s.isRecipientTyping &&
    match s.timeoutDeadline with
    | some d => decide (t < d)
    | none => true

/-- Fold the broadcast handler over a sequence of received events, each a
`(payload user_id, arrival instant)` pair. -/
def runTypingEvents (selectedRecipient : String) (events : List (String × Nat)) :
    TypingState :=
  events.foldl (fun s ev => onTypingBroadcast s selectedRecipient ev.1 ev.2)
    initialTypingState

/-- The indicator observed at instant `t` on a timeline of received events:
only events that have arrived by `t` have been processed. -/
def typingVisibleAt (selectedRecipient : String) (events : List (String × Nat))
    (t : Nat) : Bool :=
  typingVisible
    (runTypingEvents selectedRecipient (events.filter fun ev => decide (ev.2 ≤ t))) t

/-- The `user_id` that `sendTypingIndicator` puts in its broadcast payload
(`ChatRoom.tsx` line 194): the sender's own profile id. -/
def sendTypingPayloadUserId (currentProfileId : String) : String := currentProfileId

/-- JavaScript two-element `Array.prototype.sort()` with the default
(string-comparison) comparator. -/
def jsSortPair (a b : String) : List String := if a ≤ b then [a, b] else [b, a]

/-- The typing channel the client subscribes to (`ChatRoom.tsx` line 150):
`` `typing-${[currentProfile.id, selectedRecipient].sort().join('-')}` ``. -/
def subscribeTypingChannelName (me peer : String) : String :=
  "typing-" ++ String.intercalate "-" (jsSortPair me peer)

/-- The channel `sendTypingIndicator` broadcasts on (`ChatRoom.tsx`
line 190), computed by the same expression. -/
def sendTypingChannelName (me peer : String) : String :=
  "typing-" ++ String.intercalate "-" (jsSortPair me peer)

/-- JavaScript `String.prototype.split('.')` on the character list:
the list of dot-separated segments (never empty; `"" ↦ [""]`). -/
def splitDotList : List Char → List (List Char)
  | [] => [[]]
  | c :: rest =>
    if c = '.' then [] :: splitDotList rest
    else
      match splitDotList rest with
      | [] => [[c]]
      | seg :: segs => (c :: seg) :: segs

/-- `file.name.split('.').pop()` (`ChatRoom.tsx` line 261): the last
dot-separated component of the file name. -/
def fileExtOf (name : String) : String :=
  String.mk ((splitDotList name.data).getLastD [])

/-- JavaScript `String.prototype.startsWith`. -/
def jsStartsWith (s pre : String) : Bool := pre.data.isPrefixOf s.data

/-- The storage object path built by `uploadFile` (`ChatRoom.tsx` line 262):
`` `${user.id}/${Date.now()}.${fileExt}` ``. -/
def storageFileName (userId origName : String) (now : Nat) : String :=
  userId ++ "/" ++ toString now ++ "." ++ fileExtOf origName

/-- Models the storage client's `getPublicUrl` for bucket `chat-media`
(`ChatRoom.tsx` lines 277-279): a URL that resolves the given object path. -/
def getPublicUrl (fileName : String) : String :=
  "/storage/v1/object/public/chat-media/" ++ fileName

/-- `uploadFile` (`ChatRoom.tsx` lines 260-282). `uploadFails` is the
outcome of the external `storage.upload` call; on failure an error toast is
shown and `null` is returned, on success the public URL of the stored path.
Returns `(url?, upload-error toast shown)`. -/
def uploadFile (userId origName : String) (now : Nat) (uploadFails : Bool) :
    Option String × Bool :=
  if uploadFails then (none, true)
  else (some (getPublicUrl (storageFileName userId origName now)), false)

/-- Result of one run of `handleImageUpload`: which toasts fired, whether a
storage upload was attempted, the attempted message inserts, and the
pass-through view state (the handler never touches the message list or the
composer text). -/
structure ImageUploadResult where
  invalidToast : Bool
  uploadAttempted : Bool
  uploadToast : Bool
  inserted : List InsertRow
  messages : List Message
  newMessage : String
deriving DecidableEq

/-- `handleImageUpload` (`ChatRoom.tsx` lines 284-320), with the selected
file's MIME type and name explicit and `currentProfile`/`selectedRecipient`
assumed present (the guard on line 286). -/
def handleImageUpload (fileType fileName username profileId recipient userId : String)
    (now : Nat) (uploadFails : Bool) (messages : List Message) (newMessage : String) :
    ImageUploadResult :=
  if jsStartsWith fileType "image/" then
    match uploadFile userId fileName now uploadFails with
    | (none, _) => ⟨false, true, true, [], messages, newMessage⟩
    | (some url, _) =>
        ⟨false, true, false,
          [{ content := "", sender_name := username, sender_id := profileId,
             recipient_id := recipient, image_url := some url, voice_url := none }],
          messages, newMessage⟩
  else ⟨true, false, false, [], messages, newMessage⟩

/-- Result of the voice `mediaRecorder.onstop` handler: whether the
upload-error toast fired and the attempted message inserts. -/
structure MediaSendResult where
  uploadToast : Bool
  inserted : List InsertRow
deriving DecidableEq

/-- The `mediaRecorder.onstop` handler (`ChatRoom.tsx` lines 333-362):
the recorded blob is wrapped in a file named `` `voice_${Date.now()}.webm` ``
(instant `nameTime`), uploaded (instant `upTime` inside `uploadFile`), and
on success one voice message row is inserted. -/
def handleVoiceStop (username profileId recipient userId : String)
    (nameTime upTime : Nat) (uploadFails : Bool) : MediaSendResult :=
  let audioFileName := "voice_" ++ toString nameTime ++ ".webm"
  match uploadFile userId audioFileName upTime uploadFails with
  | (none, _) => ⟨true, []⟩
  | (some url, _) =>
      ⟨false,
        [{ content := "", sender_name := username, sender_id := profileId,
           recipient_id := recipient, image_url := none, voice_url := some url }]⟩

/-- The `maxLength` attribute of the composer `Input`
(`ChatRoom.tsx` line 726). -/
def composerMaxLength : Nat := 500

/-- `handleSendMessage` (`ChatRoom.tsx` lines 402-426): nothing is inserted
when the trimmed composer text is empty; otherwise one text row is inserted
whose content is the trimmed text. -/
def handleSendMessage (newMessage username profileId recipient : String) :
    Option InsertRow :=
  if jsTrim newMessage = "" then none
  else some { content := jsTrim newMessage, sender_name := username,
              sender_id := profileId, recipient_id := recipient }

/-- C1 counterexample: the entered code `"cipher2024"` is not the fixed
constant `SECRET_CODE`, yet with the non-empty alias `"bob"` the gate
grants access, because the comparison upper-cases the entered code first. -/
theorem secretGate_caseInsensitive_cex :
    handleSubmit "bob" "cipher2024" = GateResult.granted "bob" ∧
      "cipher2024" ≠ SECRET_CODE := by decide

/-- C1 (amended): when the entered code matches the fixed constant
case-insensitively (its upper-cased form equals `SECRET_CODE`) and the
trimmed alias is non-empty, access is granted with the trimmed alias; when
the upper-cased code does not equal the constant, access is denied and a
non-empty error message is shown. -/
theorem secretGate_spec (name code : String) :
    (jsToUpperCase code = SECRET_CODE → jsTrim name ≠ "" →
      handleSubmit name code = GateResult.granted (jsTrim name))
    ∧ (jsToUpperCase code ≠ SECRET_CODE →
      ∃ err, handleSubmit name code = GateResult.denied err ∧ err ≠ "") := by
  constructor
  · intro hc hn
    unfold handleSubmit
    rw [if_neg hn, if_pos hc]
  · intro hc
    unfold handleSubmit
    by_cases hn : jsTrim name = ""
    · rw [if_pos hn]
      exact ⟨_, rfl, by decide⟩
    · rw [if_neg hn, if_neg hc]
      exact ⟨_, rfl, by decide⟩

/-- Witness for `secretGate_spec` at the concrete submission
(alias `"alice"`, code `"CIPHER2024"`). -/
theorem secretGate_spec_witness :
    jsToUpperCase "CIPHER2024" = SECRET_CODE ∧
      handleSubmit "alice" "CIPHER2024" = GateResult.granted (jsTrim "alice") :=
  ⟨by decide, (secretGate_spec "alice" "CIPHER2024").1 (by decide) (by decide)⟩

/-- A message whose `read_at` is already set, used to exercise the
mark-read operations on an already-read row. -/
def alreadyReadMsg : Message :=
  { id := "m1", content := "hi", sender_name := "alice", sender_id := "A",
    recipient_id := "B", created_at := 10, read_at := some 5 }

/-- C2 counterexample: `markMessageAsRead` carries no `read_at IS NULL`
guard, so invoked on a message whose `read_at` is already `some 5` it
overwrites it with the new timestamp `some 9`. -/
theorem markRead_overwrite_cex :
    alreadyReadMsg.read_at = some 5 ∧
      markMessageAsRead [alreadyReadMsg] "m1" 9 =
        [{ alreadyReadMsg with read_at := some 9 }] ∧
      ({ alreadyReadMsg with read_at := some 9 } : Message).read_at ≠ some 5 := by
  decide

/-- C2 (amended): the bulk mark-read writes `read_at` only on rows whose
`read_at` is currently absent (already-read rows are returned unchanged),
and neither mark-read operation ever sets a present `read_at` back to
absent; the single-message mark-read, however, writes `read_at`
unconditionally on the row with the given id. Stated positionally on any
row `m` at index `i` of the table. -/
theorem markRead_transitions (table : List Message) (peer me msgId : String)
    (now : Nat) (i : Nat) (m : Message) (hm : table[i]? = some m) :
    (∀ t, m.read_at = some t → (markMessagesAsRead table peer me now)[i]? = some m)
    ∧ (∀ m2, (markMessagesAsRead table peer me now)[i]? = some m2 →
        m2.read_at = none → m.read_at = none)
    ∧ (∀ m2, (markMessageAsRead table msgId now)[i]? = some m2 →
        m2.read_at = none → m.read_at = none)
    ∧ (m.id = msgId →
        (markMessageAsRead table msgId now)[i]? =
          some { m with read_at := some now }) := by
  refine ⟨?_, ?_, ?_, ?_⟩
  · intro t ht
    simp only [markMessagesAsRead, List.getElem?_map, hm, Option.map_some']
    rw [if_neg (by simp [ht])]
  · intro m2 h2 hnone
    simp only [markMessagesAsRead, List.getElem?_map, hm, Option.map_some',
      Option.some.injEq] at h2
    by_cases hcond : m.sender_id = peer ∧ m.recipient_id = me ∧ m.read_at = none
    · exact hcond.2.2
    · rw [if_neg hcond] at h2
      rw [← h2] at hnone
      exact hnone
  · intro m2 h2 hnone
    simp only [markMessageAsRead, List.getElem?_map, hm, Option.map_some',
      Option.some.injEq] at h2
    by_cases hid : m.id = msgId
    · rw [if_pos hid] at h2
      rw [← h2] at hnone
      simp at hnone
    · rw [if_neg hid] at h2
      rw [← h2] at hnone
      exact hnone
  · intro hid
    simp only [markMessageAsRead, List.getElem?_map, hm, Option.map_some']
    rw [if_pos hid]

/-- Witness for `markRead_transitions`: on the singleton table holding an
already-read message, the bulk mark-read leaves the row unchanged. -/
theorem markRead_transitions_witness :
    (markMessagesAsRead [alreadyReadMsg] "A" "B" 99)[0]? = some alreadyReadMsg :=
  (markRead_transitions [alreadyReadMsg] "A" "B" "m1" 99 0 alreadyReadMsg
    (by decide)).1 5 (by decide)

/-- C3: loading the history returns a permutation of exactly the table rows
whose sender/recipient pair is the open pair in either direction, sorted by
`created_at` ascending, with nothing dropped. -/
theorem fetchMessages_spec (table : List Message) (me peer : String) :
    (fetchMessages table me peer).Sorted createdLE
    ∧ List.Perm (fetchMessages table me peer) (table.filter (pairMatch me peer))
    ∧ ∀ m : Message, m ∈ fetchMessages table me peer ↔
        m ∈ table ∧ ((m.sender_id = me ∧ m.recipient_id = peer) ∨
                     (m.sender_id = peer ∧ m.recipient_id = me)) := by
  refine ⟨List.sorted_insertionSort createdLE _,
    List.perm_insertionSort createdLE _, ?_⟩
  intro m
  rw [fetchMessages, List.mem_insertionSort, List.mem_filter]
  simp [pairMatch]

/-- C4: a realtime INSERT appends the new row exactly when its
sender/recipient pair matches the open conversation; a realtime UPDATE
replaces the entry with the same id and leaves every other position (and
the length) unchanged. -/
theorem realtimeEvents_spec (msgs : List Message) (me peer : String)
    (newMsg upd : Message) :
    (pairMatch me peer newMsg = true →
      handleInsertEvent msgs me peer newMsg = msgs ++ [newMsg])
    ∧ (pairMatch me peer newMsg = false →
      handleInsertEvent msgs me peer newMsg = msgs)
    ∧ (∀ (i : Nat) (m : Message), msgs[i]? = some m →
      (handleUpdateEvent msgs upd)[i]? = some (if m.id = upd.id then upd else m))
    ∧ (handleUpdateEvent msgs upd).length = msgs.length := by
  refine ⟨?_, ?_, ?_, ?_⟩
  · intro h
    simp [handleInsertEvent, h]
  · intro h
    simp [handleInsertEvent, h]
  · intro i m hm
    simp [handleUpdateEvent, List.getElem?_map, hm]
  · simp [handleUpdateEvent]

/-- A concrete message from profile `A` to profile `B`. -/
def demoMsgAB : Message :=
  { id := "m2", content := "yo", sender_name := "alice",
    sender_id := "A", recipient_id := "B", created_at := 20 }

/-- Witness for `realtimeEvents_spec`: with profile `A` chatting with `B`,
an inserted `A → B` row is appended, and an UPDATE of that row replaces it. -/
theorem realtimeEvents_spec_witness :
    handleInsertEvent [] "A" "B" demoMsgAB = [demoMsgAB]
    ∧ (handleUpdateEvent [demoMsgAB] { demoMsgAB with content := "edited" })[0]? =
        some (if demoMsgAB.id = ({ demoMsgAB with content := "edited" } : Message).id
              then { demoMsgAB with content := "edited" } else demoMsgAB) := by
  constructor
  · exact (realtimeEvents_spec [] "A" "B" demoMsgAB demoMsgAB).1 (by decide)
  · exact (realtimeEvents_spec [demoMsgAB] "A" "B" demoMsgAB
      { demoMsgAB with content := "edited" }).2.2.1 0 demoMsgAB (by decide)

/-- C5: the typing-channel name is a symmetric function of the two
participant ids, so the channel `sendTypingIndicator` broadcasts on from
one side is the channel the other side subscribed to. -/
theorem typingChannel_symmetric (a b : String) :
    subscribeTypingChannelName a b = subscribeTypingChannelName b a
    ∧ sendTypingChannelName a b = subscribeTypingChannelName b a := by
  have hpair : jsSortPair a b = jsSortPair b a := by
    unfold jsSortPair
    rcases le_total a b with h | h
    · by_cases h2 : b ≤ a
      · have hab : a = b := le_antisymm h h2
        subst hab
        rfl
      · rw [if_pos h, if_neg h2]
    · by_cases h2 : a ≤ b
      · have hab : a = b := le_antisymm h2 h
        subst hab
        rfl
      · rw [if_neg h2, if_pos h]
  constructor
  · unfold subscribeTypingChannelName
    rw [hpair]
  · unfold sendTypingChannelName subscribeTypingChannelName
    rw [hpair]

/-- After a matching typing event, the state is exactly "indicator on,
clear scheduled 2000 ms later", whatever came before. -/
theorem runTypingEvents_append_last (peer : String) (l : List (String × Nat))
    (e : Nat) : runTypingEvents peer (l ++ [(peer, e)]) = ⟨true, some (e + 2000)⟩ := by
  simp [runTypingEvents, List.foldl_append, onTypingBroadcast]

/-- C6: on a timeline whose last typing event from the peer arrives at
instant `e`, the indicator is visible at instant `t ≥ e` exactly while
`t < e + 2000` — so with no follow-up for 2000 ms it clears; and a
follow-up at `e2` within 2000 ms of the previous event at `e1` keeps the
indicator visible continuously until 2000 ms after `e2`. -/
theorem typingIndicator_decay :
    (∀ (peer : String) (front : List (String × Nat)) (e t : Nat),
      (∀ ev ∈ front, ev.2 ≤ e) → e ≤ t →
      typingVisibleAt peer (front ++ [(peer, e)]) t = decide (t < e + 2000))
    ∧ (∀ (peer : String) (front : List (String × Nat)) (e1 e2 t : Nat),
      (∀ ev ∈ front, ev.2 ≤ e1) → e1 ≤ e2 → e2 < e1 + 2000 →
      e1 ≤ t → t < e2 + 2000 →
      typingVisibleAt peer (front ++ [(peer, e1), (peer, e2)]) t = true) := by
  constructor
  · intro peer front e t hfront het
    have hkeep : (front ++ [(peer, e)]).filter (fun ev => decide (ev.2 ≤ t)) =
        front ++ [(peer, e)] := by
      rw [List.filter_eq_self]
      intro ev hev
      rcases List.mem_append.mp hev with h | h
      · simpa using le_trans (hfront ev h) het
      · simp at h
        simp [h, het]
    rw [typingVisibleAt, hkeep, runTypingEvents_append_last]
    simp [typingVisible]
  · intro peer front e1 e2 t hfront h12 hrefresh h1t ht2
    by_cases he2 : e2 ≤ t
    · have hkeep : (front ++ [(peer, e1), (peer, e2)]).filter
          (fun ev => decide (ev.2 ≤ t)) = front ++ [(peer, e1), (peer, e2)] := by
        rw [List.filter_eq_self]
        intro ev hev
        rcases List.mem_append.mp hev with h | h
        · simpa using le_trans (hfront ev h) (le_trans h12 he2)
        · simp at h
          rcases h with h | h <;> simp [h, le_trans h12 he2, he2]
      rw [typingVisibleAt, hkeep, show front ++ [(peer, e1), (peer, e2)] =
        (front ++ [(peer, e1)]) ++ [(peer, e2)] by simp,
        runTypingEvents_append_last]
      simp [typingVisible, ht2]
    · push_neg at he2
      have hkeep : (front ++ [(peer, e1), (peer, e2)]).filter
          (fun ev => decide (ev.2 ≤ t)) = front ++ [(peer, e1)] := by
        rw [List.filter_append]
        have h1 : front.filter (fun ev => decide (ev.2 ≤ t)) = front := by
          rw [List.filter_eq_self]
          intro ev hev
          simpa using le_trans (hfront ev hev) h1t
        have h2 : ([(peer, e1), (peer, e2)] : List (String × Nat)).filter
            (fun ev => decide (ev.2 ≤ t)) = [(peer, e1)] := by
          simp [List.filter_cons, h1t, Nat.not_le.mpr he2]
        rw [h1, h2]
      rw [typingVisibleAt, hkeep, runTypingEvents_append_last]
      simp [typingVisible]
      exact Nat.lt_trans he2 hrefresh

/-- Witness for `typingIndicator_decay`: a single event from peer `"B"` at
instant 100 is no longer visible at instant 2100, while a follow-up at
instant 1100 keeps the indicator visible at instant 2000. -/
theorem typingIndicator_decay_witness :
    typingVisibleAt "B" [("B", 100)] 2100 = false
    ∧ typingVisibleAt "B" [("B", 100), ("B", 1100)] 2000 = true := by
  constructor
  · have h := typingIndicator_decay.1 "B" [] 100 2100 (by simp) (by norm_num)
    simpa using h
  · have h := typingIndicator_decay.2 "B" [] 100 1100 2000 (by simp) (by norm_num)
      (by norm_num) (by norm_num) (by norm_num)
    simpa using h

/-- C10: a typing broadcast changes the indicator state only when its
payload `user_id` is the selected recipient; an event carrying any other
id — in particular the client's own broadcast payload, which carries the
client's own profile id — leaves the state (and hence the indicator)
unchanged. -/
theorem typingIndicator_peerOnly (s : TypingState) (peer uid meId : String)
    (now : Nat) :
    (uid ≠ peer → onTypingBroadcast s peer uid now = s)
    ∧ (uid = peer → onTypingBroadcast s peer uid now = ⟨true, some (now + 2000)⟩)
    ∧ (sendTypingPayloadUserId meId ≠ peer →
        onTypingBroadcast s peer (sendTypingPayloadUserId meId) now = s) := by
  refine ⟨?_, ?_, ?_⟩
  · intro h
    simp [onTypingBroadcast, h]
  · intro h
    simp [onTypingBroadcast, h]
  · intro h
    simp only [sendTypingPayloadUserId] at h ⊢
    simp [onTypingBroadcast, h]

/-- Witness for `typingIndicator_peerOnly`: with selected recipient `"B"`,
an event carrying `"C"` and the client's own broadcast (own profile id
`"A"`) both leave the initial state unchanged. -/
theorem typingIndicator_peerOnly_witness :
    onTypingBroadcast initialTypingState "B" "C" 0 = initialTypingState
    ∧ onTypingBroadcast initialTypingState "B" (sendTypingPayloadUserId "A") 0 =
        initialTypingState := by
  constructor
  · exact (typingIndicator_peerOnly initialTypingState "B" "C" "A" 0).1 (by decide)
  · exact (typingIndicator_peerOnly initialTypingState "B" "C" "A" 0).2.2 (by decide)

/-- C7: on upload failure, `uploadFile` returns no URL and shows the
error toast, and neither media flow inserts a row; on success, the blob is
stored at the path `userId/<timestamp>.<ext>` and the public URL of that
path is attached to exactly one inserted row (image or voice). -/
theorem mediaUpload_spec :
    (∀ (userId origName : String) (now : Nat),
      uploadFile userId origName now true = (none, true))
    ∧ (∀ (ft fn username pid recip uid : String) (now : Nat)
        (msgs : List Message) (nm : String),
        jsStartsWith ft "image/" = true →
        handleImageUpload ft fn username pid recip uid now true msgs nm =
          ⟨false, true, true, [], msgs, nm⟩)
    ∧ (∀ (username pid recip uid : String) (nameTime upTime : Nat),
        handleVoiceStop username pid recip uid nameTime upTime true = ⟨true, []⟩)
    ∧ (∀ (userId origName : String) (now : Nat),
        uploadFile userId origName now false =
          (some (getPublicUrl (storageFileName userId origName now)), false)
        ∧ ∃ rest, storageFileName userId origName now = userId ++ "/" ++ rest
            ∧ rest = toString now ++ "." ++ fileExtOf origName)
    ∧ (∀ (ft fn username pid recip uid : String) (now : Nat)
        (msgs : List Message) (nm : String),
        jsStartsWith ft "image/" = true →
        (handleImageUpload ft fn username pid recip uid now false msgs nm).inserted =
          [{ content := "", sender_name := username, sender_id := pid,
             recipient_id := recip,
             image_url := some (getPublicUrl (storageFileName uid fn now)),
             voice_url := none }])
    ∧ (∀ (username pid recip uid : String) (nameTime upTime : Nat),
        (handleVoiceStop username pid recip uid nameTime upTime false).inserted =
          [{ content := "", sender_name := username, sender_id := pid,
             recipient_id := recip, image_url := none,
             voice_url := some (getPublicUrl (storageFileName uid
               ("voice_" ++ toString nameTime ++ ".webm") upTime)) }]) := by
  refine ⟨fun _ _ _ => rfl, ?_, fun _ _ _ _ _ _ => rfl, ?_, ?_, fun _ _ _ _ _ _ => rfl⟩
  · intro ft fn username pid recip uid now msgs nm h
    simp [handleImageUpload, uploadFile, h]
  · intro userId origName now
    refine ⟨rfl, toString now ++ "." ++ fileExtOf origName, ?_, rfl⟩
    simp [storageFileName, String.append_assoc]
  · intro ft fn username pid recip uid now msgs nm h
    simp [handleImageUpload, uploadFile, h]

/-- Witness for `mediaUpload_spec`: a successful image send of `"cat.png"`
by auth user `"U1"` at instant 42 inserts exactly one row carrying the
public URL of `"U1/42.png"`. -/
theorem mediaUpload_spec_witness :
    jsStartsWith "image/png" "image/" = true
    ∧ (handleImageUpload "image/png" "cat.png" "u" "A" "B" "U1" 42 false []
        "").inserted =
      [{ content := "", sender_name := "u", sender_id := "A", recipient_id := "B",
         image_url := some (getPublicUrl (storageFileName "U1" "cat.png" 42)),
         voice_url := none }] :=
  ⟨by decide, mediaUpload_spec.2.2.2.2.1 "image/png" "cat.png" "u" "A" "B" "U1" 42
    [] "" (by decide)⟩

/-- C8: a selected file whose MIME type does not start with `"image/"` only
produces the validation toast: no storage upload is attempted, no row is
inserted, and the message list and composer text are returned unchanged. -/
theorem imageUpload_rejectsNonImage (ft fn username pid recip uid : String)
    (now : Nat) (uploadFails : Bool) (msgs : List Message) (nm : String)
    (h : jsStartsWith ft "image/" = false) :
    handleImageUpload ft fn username pid recip uid now uploadFails msgs nm =
      ⟨true, false, false, [], msgs, nm⟩ := by
  simp [handleImageUpload, h]

/-- Witness for `imageUpload_rejectsNonImage` at the concrete selection of
a PDF file. -/
theorem imageUpload_rejectsNonImage_witness :
    handleImageUpload "application/pdf" "doc.pdf" "u" "A" "B" "U1" 42 false [] "" =
      ⟨true, false, false, [], [], ""⟩ :=
  imageUpload_rejectsNonImage "application/pdf" "doc.pdf" "u" "A" "B" "U1" 42 false
    [] "" (by decide)

/-- Trimming never lengthens a string. -/
theorem jsTrim_length_le (s : String) : (jsTrim s).length ≤ s.length := by
  have h1 : ∀ (l : List Char), (l.dropWhile Char.isWhitespace).length ≤ l.length :=
    fun l => (List.dropWhile_sublist _).length_le
  calc (jsTrim s).length
      = ((s.data.dropWhile Char.isWhitespace).reverse.dropWhile
          Char.isWhitespace).length := by
        simp [jsTrim, jsTrimList, String.length]
    _ ≤ (s.data.dropWhile Char.isWhitespace).reverse.length := h1 _
    _ ≤ s.data.length := by
        rw [List.length_reverse]
        exact h1 _
    _ = s.length := rfl

/-- C9: a text send inserts a row exactly when the trimmed composer text is
non-empty, with content the trimmed text — hence non-empty and, given the
composer's `maxLength`, at most 500 characters — while every image or voice
row is inserted with empty content. -/
theorem sendMessage_contentInvariant :
    (∀ (msg username pid recip : String) (row : InsertRow),
      msg.length ≤ composerMaxLength →
      handleSendMessage msg username pid recip = some row →
      row.content = jsTrim msg ∧ row.content ≠ "" ∧
        row.content.length ≤ composerMaxLength)
    ∧ (∀ (msg username pid recip : String),
      jsTrim msg = "" → handleSendMessage msg username pid recip = none)
    ∧ (∀ (ft fn username pid recip uid : String) (now : Nat) (fails : Bool)
        (msgs : List Message) (nm : String) (row : InsertRow),
        row ∈ (handleImageUpload ft fn username pid recip uid now fails
          msgs nm).inserted → row.content = "")
    ∧ (∀ (username pid recip uid : String) (nameTime upTime : Nat) (fails : Bool)
        (row : InsertRow),
        row ∈ (handleVoiceStop username pid recip uid nameTime upTime
          fails).inserted → row.content = "") := by
  refine ⟨?_, ?_, ?_, ?_⟩
  · intro msg username pid recip row hlen hrow
    unfold handleSendMessage at hrow
    by_cases htrim : jsTrim msg = ""
    · rw [if_pos htrim] at hrow
      exact absurd hrow (by simp)
    · rw [if_neg htrim] at hrow
      injection hrow with h
      subst h
      exact ⟨rfl, htrim, le_trans (jsTrim_length_le msg) hlen⟩
  · intro msg username pid recip htrim
    simp [handleSendMessage, htrim]
  · intro ft fn username pid recip uid now fails msgs nm row hrow
    unfold handleImageUpload uploadFile at hrow
    by_cases hft : jsStartsWith ft "image/" = true
    · rw [if_pos hft] at hrow
      cases fails
      · simp at hrow
        rw [hrow]
      · simp at hrow
    · simp [hft] at hrow
  · intro username pid recip uid nameTime upTime fails row hrow
    unfold handleVoiceStop uploadFile at hrow
    cases fails
    · simp at hrow
      rw [hrow]
    · simp at hrow

/-- Witness for `sendMessage_contentInvariant` at the concrete composer
text `" hi "`. -/
theorem sendMessage_contentInvariant_witness :
    (" hi " : String).length ≤ composerMaxLength
    ∧ ({ content := "hi", sender_name := "u", sender_id := "A",
         recipient_id := "B" } : InsertRow).content = jsTrim " hi " := by
  refine ⟨by decide, ?_⟩
  exact (sendMessage_contentInvariant.1 " hi " "u" "A" "B"
    { content := "hi", sender_name := "u", sender_id := "A", recipient_id := "B" }
    (by decide) (by decide)).1
